import Mathlib

/-
Verification of the nix-ipc repository (src/mtx.rs, src/shm.rs).

Shallow embedding: every OS primitive the Rust code calls (open, ftruncate,
dup, flock, mmap, the pthread mutex family, munmap) is modelled by an oracle
record holding the raw return value of each call, and each Rust function is
translated into a Lean function over that oracle which returns its Rust
result together with the list of OS calls it performed, in order, and the
new contents of the shared control block where it can write them.

The advisory file lock taken in Mtx::new serializes the initialization
section across processes, so the cross-process behaviour of a set of openers
is faithfully modelled by sequential composition of the per-process function
over the shared control-block state.

A load-bearing fact about the nix dependency: nix::errno::Errno::result(v)
returns Err(Errno::last()) exactly when v equals the sentinel -1, and Ok(v)
otherwise.  The pthread_* functions, by POSIX, report failure by returning
the (positive) error number directly and return 0 on success; they never
return -1.  Errno.result below embeds the nix function exactly.
-/

set_option autoImplicit false

/-- Linux errno value for EOWNERDEAD, the owner-died indication compared
against literally in Mtx::lock. -/
def EOWNERDEAD : Int := 130

/-- Linux errno value for EDEADLK (resource deadlock would occur). -/
def EDEADLK : Int := 35

/-- Linux errno value for EINVAL. -/
def EINVAL : Int := 22

/-- Linux errno value for EPERM. -/
def EPERM : Int := 1

/-- Linux errno value for ENOMEM. -/
def ENOMEM : Int := 12

/-- nix::errno::Errno::result for a c_int return value: the sentinel -1 is
turned into Err(errno_of_last_call); every other value, including positive
pthread error numbers, is Ok. -/
def Errno.result (v : Int) (errnoLast : Int) : Except Int Int :=
  if v = -1 then Except.error errnoLast else Except.ok v

/-- Mode::from_bits_truncate on mode_t permission flags: keeps only the
permission bits (0o7777). -/
def Mode.fromBitsTruncate (m : Nat) : Nat := m % 4096

/-- Contents of the mapped pthread_mutex_t control block: the leading c_int
that Mtx::new inspects, and the remaining bytes collapsed into one opaque
field (the code never reads them directly). -/
structure Block where
  first : Int
  rest : Int
deriving DecidableEq

/-- size_of::<pthread_mutex_t>() on the target platform (an opaque positive
constant as far as the code is concerned; 40 bytes on Linux x86-64). -/
def sizeofPthreadMutexT : Nat := 40

/-- The path string format!("/dev/shm/{}.mtx", name) used by Mtx::new. -/
def mtxPath (name : String) : String := "/dev/shm/" ++ name ++ ".mtx"

/-- One OS call performed by the mutex component, with the arguments the
Rust code passes that matter to the spec (paths, modes, sizes, addresses). -/
inductive MtxCall where
  | openCall (path : String) (mode : Nat)
  | ftruncateCall (size : Nat)
  | dupCall
  | flockExclusive
  | mmapCall (len : Nat)
  | readFirstWord
  | attrInit
  | attrSetpshared
  | attrSetrobust
  | mutexInit (addr : Nat)
  | attrDestroy
  | flockUnlock
  | mutexLock (addr : Nat)
  | mutexConsistent (addr : Nat)
  | mutexUnlock (addr : Nat)
  | mutexDestroy (addr : Nat)
  | munmapCall (addr : Nat) (len : Nat)
deriving DecidableEq

/-- Oracle for one run of Mtx::new: the outcome of every OS call it may
make.  Fallible nix wrappers are Option errors; raw c_int returns (dup and
the pthread family) are Ints fed through Errno.result exactly as the code
does.  initedBlock is the control-block contents that a pthread_mutex_init
call writes in place. -/
structure MtxOS where
  openErr : Option Int
  openFd : Nat
  ftruncateErr : Option Int
  dupRet : Int
  flockErr : Option String
  mmapErr : Option Int
  mmapAddr : Nat
  attrInitRet : Int
  setpsharedRet : Int
  setrobustRet : Int
  mutexInitRet : Int
  initedBlock : Block
  attrDestroyRet : Int
  funlockErr : Option String
  errnoLast : Int
deriving DecidableEq

/-- The Mtx handle: owns the file descriptor and the mapped pointer. -/
structure Mtx where
  fd : Nat
  ptr : Nat
deriving DecidableEq

/-- The result of locking an interprocess mutex (LockResult in mtx.rs). -/
inductive LockResult where
  | Acquired
  | OwnerDiedRecovered
deriving DecidableEq

/-- Mtx::new(name), translated line by line from mtx.rs.  Takes the oracle
and the shared control-block contents at entry (read under the advisory
lock), returns the Rust Result, the control-block contents at exit, and the
ordered list of OS calls performed. -/
def Mtx.new (name : String) (os : MtxOS) (b : Block) :
    Except String Mtx × Block × List MtxCall :=
  let path := mtxPath name
  let tr1 : List MtxCall := [MtxCall.openCall path (Mode.fromBitsTruncate 0o600)]
  match os.openErr with
  | some e => (Except.error (toString e), b, tr1)
  | none =>
    let tr2 := tr1 ++ [MtxCall.ftruncateCall sizeofPthreadMutexT]
    match os.ftruncateErr with
    | some e => (Except.error (toString e), b, tr2)
    | none =>
      let tr3 := tr2 ++ [MtxCall.dupCall]
      match Errno.result os.dupRet os.errnoLast with
      | Except.error e => (Except.error (toString e), b, tr3)
      | Except.ok _ =>
        let tr4 := tr3 ++ [MtxCall.flockExclusive]
        match os.flockErr with
        | some e => (Except.error ("init-lock failed: " ++ e), b, tr4)
        | none =>
          let tr5 := tr4 ++ [MtxCall.mmapCall sizeofPthreadMutexT]
          match os.mmapErr with
          | some e => (Except.error (toString e), b, tr5)
          | none =>
            let tr6 := tr5 ++ [MtxCall.readFirstWord]
            let first := b.first
            if first = 0 then
              let tr7 := tr6 ++ [MtxCall.attrInit]
              match Errno.result os.attrInitRet os.errnoLast with
              | Except.error e => (Except.error (toString e), b, tr7)
              | Except.ok _ =>
                let tr8 := tr7 ++ [MtxCall.attrSetpshared]
                match Errno.result os.setpsharedRet os.errnoLast with
                | Except.error e => (Except.error (toString e), b, tr8)
                | Except.ok _ =>
                  let tr9 := tr8 ++ [MtxCall.attrSetrobust]
                  match Errno.result os.setrobustRet os.errnoLast with
                  | Except.error e => (Except.error (toString e), b, tr9)
                  | Except.ok _ =>
                    let tr10 := tr9 ++ [MtxCall.mutexInit os.mmapAddr]
                    let b2 := os.initedBlock
                    match Errno.result os.mutexInitRet os.errnoLast with
                    | Except.error e => (Except.error (toString e), b2, tr10)
                    | Except.ok _ =>
                      let tr11 := tr10 ++ [MtxCall.attrDestroy]
                      match Errno.result os.attrDestroyRet os.errnoLast with
                      | Except.error e => (Except.error (toString e), b2, tr11)
                      | Except.ok _ =>
                        let tr12 := tr11 ++ [MtxCall.flockUnlock]
                        match os.funlockErr with
                        | some e => (Except.error ("init-unlock failed: " ++ e), b2, tr12)
                        | none => (Except.ok ⟨os.openFd, os.mmapAddr⟩, b2, tr12)
            else
              let tr7 := tr6 ++ [MtxCall.flockUnlock]
              match os.funlockErr with
              | some e => (Except.error ("init-unlock failed: " ++ e), b, tr7)
              | none => (Except.ok ⟨os.openFd, os.mmapAddr⟩, b, tr7)

/-- Oracle for one run of Mtx::lock: the raw return values of
pthread_mutex_lock and pthread_mutex_consistent, and the ambient errno that
Errno::result would read on a -1 sentinel. -/
structure LockOS where
  lockRet : Int
  consistentRet : Int
  errnoLast : Int
deriving DecidableEq

/-- Mtx::lock, translated line by line from mtx.rs. -/
def Mtx.lock (m : Mtx) (os : LockOS) : Except String LockResult × List MtxCall :=
  let err := os.lockRet
  if err = EOWNERDEAD then
    let tr := [MtxCall.mutexLock m.ptr, MtxCall.mutexConsistent m.ptr]
    match Errno.result os.consistentRet os.errnoLast with
    | Except.error e => (Except.error ("pthread_mutex_consistent failed: " ++ toString e), tr)
    | Except.ok _ => (Except.ok LockResult.OwnerDiedRecovered, tr)
  else
    match Errno.result err os.errnoLast with
    | Except.ok _ => (Except.ok LockResult.Acquired, [MtxCall.mutexLock m.ptr])
    | Except.error e =>
      (Except.error ("pthread_mutex_lock failed: " ++ toString e), [MtxCall.mutexLock m.ptr])

/-- Oracle for one run of Mtx::unlock. -/
structure UnlockOS where
  unlockRet : Int
  errnoLast : Int
deriving DecidableEq

/-- Mtx::unlock, translated line by line from mtx.rs. -/
def Mtx.unlock (m : Mtx) (os : UnlockOS) : Except String Unit × List MtxCall :=
  match Errno.result os.unlockRet os.errnoLast with
  | Except.ok _ => (Except.ok (), [MtxCall.mutexUnlock m.ptr])
  | Except.error e =>
    (Except.error ("pthread_mutex_unlock failed: " ++ toString e), [MtxCall.mutexUnlock m.ptr])

/-- Drop for Mtx: munmap of this process's mapping only; the commented-out
pthread_mutex_destroy is deliberately absent, so the shared control block is
returned unchanged and no call in the trace writes it. -/
def Mtx.drop (m : Mtx) (shared : Block) : Block × List MtxCall :=
  (shared, [MtxCall.munmapCall m.ptr sizeofPthreadMutexT])

/-- An oracle on which every OS call Mtx::new makes succeeds (nix wrappers
return Ok; raw c_int returns are not the -1 sentinel). -/
def MtxOS.allOk (os : MtxOS) : Prop :=
  os.openErr = none ∧ os.ftruncateErr = none ∧ os.dupRet ≠ -1 ∧ os.flockErr = none ∧
  os.mmapErr = none ∧ os.attrInitRet ≠ -1 ∧ os.setpsharedRet ≠ -1 ∧
  os.setrobustRet ≠ -1 ∧ os.mutexInitRet ≠ -1 ∧ os.attrDestroyRet ≠ -1 ∧
  os.funlockErr = none

instance (os : MtxOS) : Decidable os.allOk := by
  unfold MtxOS.allOk
  exact inferInstance

/-- The call sequence of a fully successful Mtx::new that finds the leading
word nonzero and skips initialization. -/
def mtxSkipTrace (name : String) : List MtxCall :=
  [MtxCall.openCall (mtxPath name) 0o600, MtxCall.ftruncateCall sizeofPthreadMutexT,
   MtxCall.dupCall, MtxCall.flockExclusive, MtxCall.mmapCall sizeofPthreadMutexT,
   MtxCall.readFirstWord, MtxCall.flockUnlock]

/-- The call sequence of a fully successful Mtx::new that finds the leading
word zero and performs the one-time initialization under the advisory lock. -/
def mtxInitTrace (name : String) (addr : Nat) : List MtxCall :=
  [MtxCall.openCall (mtxPath name) 0o600, MtxCall.ftruncateCall sizeofPthreadMutexT,
   MtxCall.dupCall, MtxCall.flockExclusive, MtxCall.mmapCall sizeofPthreadMutexT,
   MtxCall.readFirstWord, MtxCall.attrInit, MtxCall.attrSetpshared,
   MtxCall.attrSetrobust, MtxCall.mutexInit addr, MtxCall.attrDestroy,
   MtxCall.flockUnlock]

/-- Number of pthread_mutex_init calls in a trace. -/
def countInit : List MtxCall → Nat
  | [] => 0
  | MtxCall.mutexInit _ :: rest => countInit rest + 1
  | _ :: rest => countInit rest

/-- Sequential composition of Mtx::new runs by successive processes on the
same name (the advisory lock serializes the initialization section, so the
cross-process interleaving is equivalent to this sequence).  Returns the
final control-block contents and the total number of pthread_mutex_init
calls performed. -/
def openSeq (name : String) (oss : List MtxOS) (b : Block) : Block × Nat :=
  match oss with
  | [] => (b, 0)
  | os :: rest =>
    let r := Mtx.new name os b
    let s := openSeq name rest r.2.1
    (s.1, countInit r.2.2 + s.2)

theorem countInit_skipTrace (name : String) : countInit (mtxSkipTrace name) = 0 := rfl

theorem countInit_initTrace (name : String) (addr : Nat) :
    countInit (mtxInitTrace name addr) = 1 := rfl

/-- On an all-successful oracle, when the leading word is nonzero, Mtx::new
returns a handle, leaves the control block untouched and performs exactly
the skip sequence of calls. -/
theorem Mtx.new_skip_eq (name : String) (os : MtxOS) (b : Block)
    (hos : os.allOk) (hb : b.first ≠ 0) :
    Mtx.new name os b = (Except.ok ⟨os.openFd, os.mmapAddr⟩, b, mtxSkipTrace name) := by
  obtain ⟨h1, h2, h3, h4, h5, h6, h7, h8, h9, h10, h11⟩ := hos
  simp [Mtx.new, Errno.result, Mode.fromBitsTruncate, mtxSkipTrace,
    h1, h2, h3, h4, h5, h6, h7, h8, h9, h10, h11, hb]

/-- On an all-successful oracle, when the leading word is zero, Mtx::new
initializes the control block in place and performs exactly the full
initialization sequence of calls. -/
theorem Mtx.new_init_eq (name : String) (os : MtxOS) (b : Block)
    (hos : os.allOk) (hb : b.first = 0) :
    Mtx.new name os b =
      (Except.ok ⟨os.openFd, os.mmapAddr⟩, os.initedBlock, mtxInitTrace name os.mmapAddr) := by
  obtain ⟨h1, h2, h3, h4, h5, h6, h7, h8, h9, h10, h11⟩ := hos
  simp [Mtx.new, Errno.result, Mode.fromBitsTruncate, mtxInitTrace,
    h1, h2, h3, h4, h5, h6, h7, h8, h9, h10, h11, hb]

/-- Every opener that finds a nonzero leading word leaves the block alone
and performs no initialization; a whole sequence of them changes nothing. -/
theorem openSeq_skip (name : String) (oss : List MtxOS)
    (h : ∀ o ∈ oss, MtxOS.allOk o) :
    ∀ b : Block, b.first ≠ 0 → openSeq name oss b = (b, 0) := by
  induction oss with
  | nil => intro b hb; rfl
  | cons os rest ih =>
    intro b hb
    have hos : MtxOS.allOk os := h os (by simp)
    have hrest : ∀ o ∈ rest, MtxOS.allOk o := fun o ho => h o (by simp [ho])
    simp [openSeq, Mtx.new_skip_eq name os b hos hb, ih hrest b hb, countInit_skipTrace]

/-- The path string format!("/dev/shm/{}", name) used by Shm::new. -/
def shmPath (name : String) : String := "/dev/shm/" ++ name

/-- One OS call performed by the shared-value component, plus the in-process
drop_in_place finalization event emitted by Drop. -/
inductive ShmCall where
  | openCall (path : String) (mode : Nat)
  | ftruncateCall (size : Nat)
  | mmapCall (len : Nat)
  | dropInPlace (addr : Nat)
  | munmapCall (addr : Nat) (len : Nat)
deriving DecidableEq

/-- Oracle for one run of Shm::new. -/
structure ShmOS where
  openErr : Option Int
  openFd : Nat
  ftruncateErr : Option Int
  mmapErr : Option Int
  mmapAddr : Nat
deriving DecidableEq

/-- An oracle on which every OS call Shm::new makes succeeds. -/
def ShmOS.allOk (os : ShmOS) : Prop :=
  os.openErr = none ∧ os.ftruncateErr = none ∧ os.mmapErr = none

instance (os : ShmOS) : Decidable os.allOk := by
  unfold ShmOS.allOk
  exact inferInstance

/-- The Shm handle: owns the file descriptor, the mapped pointer and the
mapping length. -/
structure Shm where
  fd : Nat
  ptr : Nat
  len : Nat
deriving DecidableEq

/-- Shm::<T>::new(name), translated line by line from shm.rs.  The type T
enters only through sizeofT = size_of::<T>(); the NonZeroUsize::new check on
that size precedes every OS call. -/
def Shm.new (name : String) (sizeofT : Nat) (os : ShmOS) :
    Except String Shm × List ShmCall :=
  let path := shmPath name
  let shm_size := sizeofT
  if shm_size = 0 then
    (Except.error "Cannot use zero-sized type in shared memory", [])
  else
    let tr1 : List ShmCall := [ShmCall.openCall path (Mode.fromBitsTruncate 0o600)]
    match os.openErr with
    | some e => (Except.error (toString e), tr1)
    | none =>
      let tr2 := tr1 ++ [ShmCall.ftruncateCall shm_size]
      match os.ftruncateErr with
      | some e => (Except.error (toString e), tr2)
      | none =>
        let tr3 := tr2 ++ [ShmCall.mmapCall shm_size]
        match os.mmapErr with
        | some e => (Except.error (toString e), tr3)
        | none => (Except.ok ⟨os.openFd, os.mmapAddr, shm_size⟩, tr3)

/-- Shm::access, translated from shm.rs: read the mapped value through the
pointer, hand a mutable reference to the closure, return the closure's
result.  The mapping is modelled as a heap indexed by address; the closure
FnOnce(&mut T) -> R is modelled state-passing as T -> R x T.  No OS call
and no lock operation of any kind occurs. -/
def Shm.access {T R : Type} (h : Shm) (heap : Nat → T) (accessor : T → R × T) :
    R × (Nat → T) :=
  let data := heap h.ptr
  let p := accessor data
  (p.1, fun a => if a = h.ptr then p.2 else heap a)

/-- Drop for Shm: drop_in_place on the mapped value, then munmap, in source
order. -/
def Shm.drop (h : Shm) : List ShmCall :=
  [ShmCall.dropInPlace h.ptr, ShmCall.munmapCall h.ptr h.len]

/-- On an all-successful oracle with nonzero size, Shm::new returns a handle
of exactly that length and performs exactly open, ftruncate, mmap. -/
theorem Shm.new_ok_eq (name : String) (n : Nat) (os : ShmOS)
    (hos : os.allOk) (hn : n ≠ 0) :
    Shm.new name n os =
      (Except.ok ⟨os.openFd, os.mmapAddr, n⟩,
       [ShmCall.openCall (shmPath name) 0o600, ShmCall.ftruncateCall n,
        ShmCall.mmapCall n]) := by
  obtain ⟨h1, h2, h3⟩ := hos
  simp [Shm.new, Mode.fromBitsTruncate, h1, h2, h3, hn]

/-- A concrete fully successful oracle for Mtx::new. -/
def osGood : MtxOS :=
  { openErr := none, openFd := 3, ftruncateErr := none, dupRet := 4,
    flockErr := none, mmapErr := none, mmapAddr := 100, attrInitRet := 0,
    setpsharedRet := 0, setrobustRet := 0, mutexInitRet := 0,
    initedBlock := ⟨1, 0⟩, attrDestroyRet := 0, funlockErr := none,
    errnoLast := 0 }

/-- The oracle on which every file-level OS call succeeds but
pthread_mutexattr_init fails with ENOMEM, reported as its return value in
the POSIX way (the function returns the error number, not -1). -/
def osAttrFail : MtxOS := { osGood with attrInitRet := ENOMEM }

/-- A concrete fully successful oracle for Shm::new. -/
def shmOsGood : ShmOS :=
  { openErr := none, openFd := 5, ftruncateErr := none, mmapErr := none,
    mmapAddr := 200 }

/-- C1: Mtx::lock returns OwnerDiedRecovered after an EOWNERDEAD acquisition
and Acquired after a normal one, but, contrary to the claim, any other OS
error is NOT returned as a failure: pthread_mutex_lock reports errors by
returning the positive error number (here EDEADLK = 35), nix Errno::result
only treats -1 as failure, so the code reports Ok(Acquired). -/
theorem mtx_lock_other_error_reported_as_acquired :
    Mtx.lock ⟨3, 100⟩ ⟨0, 0, 0⟩ = (Except.ok LockResult.Acquired, [MtxCall.mutexLock 100])
  ∧ Mtx.lock ⟨3, 100⟩ ⟨EOWNERDEAD, 0, 0⟩ =
      (Except.ok LockResult.OwnerDiedRecovered,
       [MtxCall.mutexLock 100, MtxCall.mutexConsistent 100])
  ∧ Mtx.lock ⟨3, 100⟩ ⟨EDEADLK, 0, 0⟩ =
      (Except.ok LockResult.Acquired, [MtxCall.mutexLock 100]) :=
  ⟨rfl, rfl, rfl⟩

/-- C10: contrary to the claim, when the EOWNERDEAD acquisition succeeds but
pthread_mutex_consistent fails (returning EINVAL = 22 in the POSIX way),
Mtx::lock does not return an error: Errno::result only treats -1 as failure,
so the call reports Ok(OwnerDiedRecovered).  The lock is indeed never
released on this path (no unlock call appears in the trace). -/
theorem mtx_lock_consistent_failure_not_surfaced :
    Mtx.lock ⟨3, 100⟩ ⟨EOWNERDEAD, EINVAL, 0⟩ =
      (Except.ok LockResult.OwnerDiedRecovered,
       [MtxCall.mutexLock 100, MtxCall.mutexConsistent 100])
  ∧ (∀ a : Nat, MtxCall.mutexUnlock a ∉ (Mtx.lock ⟨3, 100⟩ ⟨EOWNERDEAD, EINVAL, 0⟩).2) := by
  refine ⟨rfl, ?_⟩
  intro a
  show MtxCall.mutexUnlock a ∉ [MtxCall.mutexLock 100, MtxCall.mutexConsistent 100]
  simp

/-- C7: contrary to the claim, an OS-level release failure is swallowed:
pthread_mutex_unlock reports failure by returning the positive error number
(here EPERM = 1, the not-the-owner case), Errno::result only treats -1 as
failure, so Mtx::unlock reports Ok(()).  On a genuine success (return 0) it
does return unit. -/
theorem mtx_unlock_failure_swallowed :
    Mtx.unlock ⟨3, 100⟩ ⟨EPERM, 0⟩ = (Except.ok (), [MtxCall.mutexUnlock 100])
  ∧ Mtx.unlock ⟨3, 100⟩ ⟨0, 0⟩ = (Except.ok (), [MtxCall.mutexUnlock 100]) :=
  ⟨rfl, rfl⟩

/-- C3: on a fully successful run Mtx::new performs exactly the claimed step
order (open, ftruncate, dup, exclusive flock before mmap and before the
initialized-check, the one-time initialization under the advisory lock,
flock release last) with each step appearing once; but, contrary to the
error conjunct of the claim, a failure of the attribute-setup step is not
returned: with pthread_mutexattr_init returning ENOMEM = 12, Mtx::new still
returns Ok and still runs every following step. -/
theorem mtx_new_step_order_and_init_failure_not_surfaced :
    Mtx.new "m" osGood ⟨0, 0⟩ = (Except.ok ⟨3, 100⟩, ⟨1, 0⟩, mtxInitTrace "m" 100)
  ∧ (Mtx.new "m" osAttrFail ⟨0, 0⟩).1 = Except.ok ⟨3, 100⟩
  ∧ (Mtx.new "m" osAttrFail ⟨0, 0⟩).2.2 = mtxInitTrace "m" 100 :=
  ⟨rfl, rfl, rfl⟩

/-- C2: Mtx::new initializes the control block only when its leading word
reads zero and otherwise leaves it exactly unchanged with no init call; in a
serialized sequence of openers starting from a zero-filled block, under the
assumption (the heuristic the spec relies on) that a successfully
initialized block has a nonzero leading word, pthread_mutex_init runs
exactly once overall: once in the first open and never in the others. -/
theorem mtx_control_block_initialized_once
    (name : String) (os : MtxOS) (c : Block) (os0 : MtxOS) (rest : List MtxOS) (b : Block)
    (hos : os.allOk) (hc : c.first ≠ 0) (hb : b.first = 0)
    (hall : ∀ o ∈ os0 :: rest, o.allOk ∧ o.initedBlock.first ≠ 0) :
    (Mtx.new name os c).2.1 = c
  ∧ countInit (Mtx.new name os c).2.2 = 0
  ∧ countInit (Mtx.new name os0 b).2.2 = 1
  ∧ openSeq name rest (Mtx.new name os0 b).2.1 = ((Mtx.new name os0 b).2.1, 0)
  ∧ (openSeq name (os0 :: rest) b).2 = 1 := by
  have hos0 : os0.allOk := (hall os0 (by simp)).1
  have hfi : os0.initedBlock.first ≠ 0 := (hall os0 (by simp)).2
  have hrest : ∀ o ∈ rest, MtxOS.allOk o := fun o ho => (hall o (by simp [ho])).1
  have hnew0 := Mtx.new_init_eq name os0 b hos0 hb
  have hskip := Mtx.new_skip_eq name os c hos hc
  refine ⟨by rw [hskip], ?_, ?_, ?_, ?_⟩
  · rw [hskip]; exact countInit_skipTrace name
  · rw [hnew0]; exact countInit_initTrace name os0.mmapAddr
  · rw [hnew0]; exact openSeq_skip name rest hrest os0.initedBlock hfi
  · simp [openSeq, hnew0, countInit_initTrace,
      openSeq_skip name rest hrest os0.initedBlock hfi]

/-- C2 witness: the theorem applied to a concrete two-opener run. -/
theorem mtx_control_block_initialized_once_witness :
    (osGood.allOk ∧ (⟨1, 0⟩ : Block).first ≠ 0 ∧ (⟨0, 0⟩ : Block).first = 0
      ∧ ∀ o ∈ [osGood, osGood], o.allOk ∧ o.initedBlock.first ≠ 0)
  ∧ ((Mtx.new "m" osGood ⟨1, 0⟩).2.1 = ⟨1, 0⟩
     ∧ countInit (Mtx.new "m" osGood ⟨1, 0⟩).2.2 = 0
     ∧ countInit (Mtx.new "m" osGood ⟨0, 0⟩).2.2 = 1
     ∧ openSeq "m" [osGood] (Mtx.new "m" osGood ⟨0, 0⟩).2.1
         = ((Mtx.new "m" osGood ⟨0, 0⟩).2.1, 0)
     ∧ (openSeq "m" [osGood, osGood] ⟨0, 0⟩).2 = 1) :=
  ⟨⟨by decide, by decide, by decide, by decide⟩,
   mtx_control_block_initialized_once "m" osGood ⟨1, 0⟩ osGood [osGood] ⟨0, 0⟩
     (by decide) (by decide) (by decide) (by decide)⟩

/-- C4: Shm::<T>::new with a zero-sized T fails for every name and oracle
with the exact message of the code, and its call trace is empty: the
rejection happens before any open, resize or map step. -/
theorem shm_new_rejects_zero_sized_type (name : String) (os : ShmOS) :
    Shm.new name 0 os = (Except.error "Cannot use zero-sized type in shared memory", []) :=
  rfl

/-- C5: Shm::access applies the closure exactly once to the single mapped
value, returns exactly the closure's result, writes back only through the
mapped pointer (every other address is untouched), and provides no
cross-process exclusion: an access through a second handle mapping the same
address proceeds unconditionally and observes the first one's write. -/
theorem shm_access_applies_closure_once {T R R2 : Type} (h : Shm) (heap : Nat → T)
    (f : T → R × T) (h2 : Shm) (g : T → R2 × T) (hp : h2.ptr = h.ptr) :
    (Shm.access h heap f).1 = (f (heap h.ptr)).1
  ∧ (Shm.access h heap f).2 h.ptr = (f (heap h.ptr)).2
  ∧ (∀ a : Nat, a ≠ h.ptr → (Shm.access h heap f).2 a = heap a)
  ∧ (Shm.access h2 ((Shm.access h heap f).2) g).1 = (g ((f (heap h.ptr)).2)).1 := by
  refine ⟨rfl, by simp [Shm.access], ?_, ?_⟩
  · intro a ha
    simp [Shm.access, ha]
  · simp [Shm.access, hp]

def heap0 : Nat → Nat := fun _ => 0

def f0 : Nat → Nat × Nat := fun t => (t + 1, t + 7)

def g0 : Nat → Nat × Nat := fun t => (t * 2, t)

def shmH1 : Shm := ⟨3, 5, 8⟩

def shmH2 : Shm := ⟨4, 5, 8⟩

/-- C5 witness: the theorem applied to concrete handles, heap and closures. -/
theorem shm_access_applies_closure_once_witness :
    shmH2.ptr = shmH1.ptr
  ∧ ((Shm.access shmH1 heap0 f0).1 = (f0 (heap0 shmH1.ptr)).1
   ∧ (Shm.access shmH1 heap0 f0).2 shmH1.ptr = (f0 (heap0 shmH1.ptr)).2
   ∧ (∀ a : Nat, a ≠ shmH1.ptr → (Shm.access shmH1 heap0 f0).2 a = heap0 a)
   ∧ (Shm.access shmH2 ((Shm.access shmH1 heap0 f0).2) g0).1
       = (g0 ((f0 (heap0 shmH1.ptr)).2)).1) :=
  ⟨rfl, shm_access_applies_closure_once shmH1 heap0 f0 shmH2 g0 rfl⟩

/-- C6: destroying a Mtx handle performs exactly one munmap of this
process's own mapping, never calls pthread_mutex_destroy and never calls
pthread_mutex_init, and returns the shared control block unchanged; a later
Mtx::new by any other process on the block left behind still finds it
initialized, leaves it unchanged and skips initialization. -/
theorem mtx_drop_unmaps_only_local_view (m : Mtx) (b : Block) (name : String) (os : MtxOS)
    (hos : os.allOk) (hb : b.first ≠ 0) :
    Mtx.drop m b = (b, [MtxCall.munmapCall m.ptr sizeofPthreadMutexT])
  ∧ (∀ a : Nat, MtxCall.mutexDestroy a ∉ (Mtx.drop m b).2)
  ∧ (∀ a : Nat, MtxCall.mutexInit a ∉ (Mtx.drop m b).2)
  ∧ (Mtx.new name os (Mtx.drop m b).1).2.1 = b
  ∧ countInit (Mtx.new name os (Mtx.drop m b).1).2.2 = 0 := by
  have hskip := Mtx.new_skip_eq name os b hos hb
  refine ⟨rfl, ?_, ?_, ?_, ?_⟩
  · intro a
    show MtxCall.mutexDestroy a ∉ [MtxCall.munmapCall m.ptr sizeofPthreadMutexT]
    simp
  · intro a
    show MtxCall.mutexInit a ∉ [MtxCall.munmapCall m.ptr sizeofPthreadMutexT]
    simp
  · show (Mtx.new name os b).2.1 = b
    rw [hskip]
  · show countInit (Mtx.new name os b).2.2 = 0
    rw [hskip]
    exact countInit_skipTrace name

/-- C6 witness: the theorem applied to a concrete handle and block. -/
theorem mtx_drop_unmaps_only_local_view_witness :
    (osGood.allOk ∧ (⟨1, 0⟩ : Block).first ≠ 0)
  ∧ (Mtx.drop ⟨3, 100⟩ ⟨1, 0⟩ = (⟨1, 0⟩, [MtxCall.munmapCall 100 sizeofPthreadMutexT])
   ∧ (∀ a : Nat, MtxCall.mutexDestroy a ∉ (Mtx.drop ⟨3, 100⟩ ⟨1, 0⟩).2)
   ∧ (∀ a : Nat, MtxCall.mutexInit a ∉ (Mtx.drop ⟨3, 100⟩ ⟨1, 0⟩).2)
   ∧ (Mtx.new "n" osGood (Mtx.drop ⟨3, 100⟩ ⟨1, 0⟩).1).2.1 = ⟨1, 0⟩
   ∧ countInit (Mtx.new "n" osGood (Mtx.drop ⟨3, 100⟩ ⟨1, 0⟩).1).2.2 = 0) :=
  ⟨⟨by decide, by decide⟩,
   mtx_drop_unmaps_only_local_view ⟨3, 100⟩ ⟨1, 0⟩ "n" osGood (by decide) (by decide)⟩

/-- C8: destroying a Shm handle emits exactly two events, the in-process
drop_in_place of the mapped value first and the munmap of the mapping
second. -/
theorem shm_drop_destructor_before_unmap (h : Shm) :
    (Shm.drop h).length = 2
  ∧ (Shm.drop h)[0]? = some (ShmCall.dropInPlace h.ptr)
  ∧ (Shm.drop h)[1]? = some (ShmCall.munmapCall h.ptr h.len) :=
  ⟨rfl, rfl, rfl⟩

/-- C9: on successful runs, the Mtx backing file is opened at
/dev/shm/(name).mtx with mode 0o600 and resized to exactly the size of one
pthread_mutex_t control block, and the Shm backing file is opened at
/dev/shm/(name) with mode 0o600 and resized to exactly size_of(T) bytes. -/
theorem backing_file_path_size_mode (name : String) (os : MtxOS) (b : Block)
    (os2 : ShmOS) (n : Nat) (hos : os.allOk) (hos2 : os2.allOk) (hn : n ≠ 0) :
    (Mtx.new name os b).2.2.take 2 =
      [MtxCall.openCall ("/dev/shm/" ++ name ++ ".mtx") 0o600,
       MtxCall.ftruncateCall sizeofPthreadMutexT]
  ∧ (Shm.new name n os2).2.take 2 =
      [ShmCall.openCall ("/dev/shm/" ++ name) 0o600, ShmCall.ftruncateCall n] := by
  constructor
  · by_cases hb : b.first = 0
    · rw [Mtx.new_init_eq name os b hos hb]; rfl
    · rw [Mtx.new_skip_eq name os b hos hb]; rfl
  · rw [Shm.new_ok_eq name n os2 hos2 hn]; rfl

/-- C9 witness: the theorem applied to a concrete name, size and oracles. -/
theorem backing_file_path_size_mode_witness :
    (osGood.allOk ∧ shmOsGood.allOk ∧ (8 : Nat) ≠ 0)
  ∧ ((Mtx.new "x" osGood ⟨0, 0⟩).2.2.take 2 =
       [MtxCall.openCall ("/dev/shm/" ++ "x" ++ ".mtx") 0o600,
        MtxCall.ftruncateCall sizeofPthreadMutexT]
   ∧ (Shm.new "x" 8 shmOsGood).2.take 2 =
       [ShmCall.openCall ("/dev/shm/" ++ "x") 0o600, ShmCall.ftruncateCall 8]) :=
  ⟨⟨by decide, by decide, by decide⟩,
   backing_file_path_size_mode "x" osGood ⟨0, 0⟩ shmOsGood 8 (by decide) (by decide)
     (by decide)⟩
